import Mathlib

/-! Verification of the mcpinspect transport layer.

This file embeds, as Lean definitions, the transport-layer code of the
mcpinspect repository: the null-stripping normalizer (`cleanMessage` in its
three copies), the message classifier used by the Streamable and
Discovery-Stream transports, the SSE framing loops, endpoint resolution, and
the state transitions of `Send` and `Start`.  JSON documents are modelled by
the inductive `Json`; `json.Unmarshal` of a byte slice is modelled as parsing
into `Json` (the parser `parseJson` below) followed by the per-struct field
binding.  Machine strings are Lean `String`s over the same code points; the
source only manipulates ASCII protocol text, where Go byte indices and Lean
character indices agree.
-/

/-- A JSON value.  Objects keep their fields as an association list in source
order; `json.Unmarshal` into a Go map collapses duplicate keys (last wins),
which is modelled separately by `jsonToMap`. -/
inductive Json where
  | null : Json
  | bool (b : Bool) : Json
  | num (n : Int) : Json
  | str (s : String) : Json
  | arr (items : List Json) : Json
  | obj (fields : List (String × Json)) : Json

/-- Skip JSON whitespace (space, tab, newline, carriage return). -/
def skipWs : List Char → List Char
  | c :: rest =>
    if c == ' ' || c == '\t' || c == '\n' || c == '\r' then skipWs rest
    else c :: rest
  | [] => []

/-- Parse the body of a JSON string literal (after the opening quote),
returning the content characters and the remainder after the closing quote.
Escapes cover the sequences the protocol text uses. -/
def pStrBody : List Char → Option (List Char × List Char)
  | [] => none
  | '"' :: rest => some ([], rest)
  | '\\' :: e :: rest =>
    (match e with
     | '"' => some '"'
     | '\\' => some '\\'
     | '/' => some '/'
     | 'n' => some '\n'
     | 't' => some '\t'
     | 'r' => some '\r'
     | _ => none).bind fun c =>
      (pStrBody rest).map fun (cs, r) => (c :: cs, r)
  | '\\' :: [] => none
  | c :: rest => (pStrBody rest).map fun (cs, r) => (c :: cs, r)

/-- Digits to a natural number. -/
def digitsToNat (ds : List Char) : Nat :=
  ds.foldl (fun a c => a * 10 + (c.toNat - 48)) 0

/-- Parse a JSON integer (optional minus sign followed by digits). -/
def pNumber : List Char → Option (Json × List Char)
  | '-' :: cs =>
    let ds := cs.takeWhile Char.isDigit
    if ds.isEmpty then none
    else some (.num (-(digitsToNat ds : Int)), cs.drop ds.length)
  | cs =>
    let ds := cs.takeWhile Char.isDigit
    if ds.isEmpty then none
    else some (.num (digitsToNat ds : Int), cs.drop ds.length)

/-- The mode of the recursive-descent JSON parser: a value, the fields of an
object (either at the first field or after a comma), or the items of an
array. -/
inductive PMode where
  | val : PMode
  | objFirst (acc : List (String × Json)) : PMode
  | objKey (acc : List (String × Json)) : PMode
  | arrFirst (acc : List Json) : PMode
  | arrItem (acc : List Json) : PMode

/-- Recursive-descent JSON parser, fuelled so that the recursion is structural
(on the fuel) and hence evaluates inside the kernel.  Returns the parsed value
and the unconsumed remainder. -/
def pAux : Nat → PMode → List Char → Option (Json × List Char)
  | 0, _, _ => none
  | fuel + 1, .val, cs =>
    match skipWs cs with
    | 'n' :: 'u' :: 'l' :: 'l' :: rest => some (.null, rest)
    | 't' :: 'r' :: 'u' :: 'e' :: rest => some (.bool true, rest)
    | 'f' :: 'a' :: 'l' :: 's' :: 'e' :: rest => some (.bool false, rest)
    | '"' :: rest => (pStrBody rest).map fun (cs, r) => (.str (String.mk cs), r)
    | '\x7b' :: rest => pAux fuel (.objFirst []) rest
    | '[' :: rest => pAux fuel (.arrFirst []) rest
    | cs' => pNumber cs'
  | fuel + 1, .objFirst acc, cs =>
    (match skipWs cs with
     | '\x7d' :: rest => some (.obj acc.reverse, rest)
     | cs' => pAux fuel (.objKey acc) cs')
  | fuel + 1, .objKey acc, cs =>
    match skipWs cs with
    | '"' :: rest =>
      (pStrBody rest).bind fun (key, afterKey) =>
        match skipWs afterKey with
        | ':' :: afterColon =>
          (pAux fuel .val afterColon).bind fun (v, afterVal) =>
            match skipWs afterVal with
            | ',' :: afterComma =>
              pAux fuel (.objKey ((String.mk key, v) :: acc)) afterComma
            | '\x7d' :: rest' =>
              some (.obj ((String.mk key, v) :: acc).reverse, rest')
            | _ => none
        | _ => none
    | _ => none
  | fuel + 1, .arrFirst acc, cs =>
    (match skipWs cs with
     | ']' :: rest => some (.arr acc.reverse, rest)
     | cs' => pAux fuel (.arrItem acc) cs')
  | fuel + 1, .arrItem acc, cs =>
    (pAux fuel .val cs).bind fun (v, afterVal) =>
      match skipWs afterVal with
      | ',' :: afterComma => pAux fuel (.arrItem (v :: acc)) afterComma
      | ']' :: rest => some (.arr (v :: acc).reverse, rest)
      | _ => none

/-- Parse a whole JSON document, as `json.Unmarshal` does: one value followed
only by whitespace.  `none` models an `Unmarshal` error. -/
def parseJson (s : String) : Option Json :=
  match pAux (2 * s.length + 2) .val s.toList with
  | some (j, rest) => if (skipWs rest).isEmpty then some j else none
  | none => none

/-! Section: String helpers mirroring the Go standard library

The transports use `strings.HasPrefix`, `strings.TrimPrefix`, `strings.Join`,
`strings.Contains`, `strings.LastIndex`, `strings.TrimSpace` and
`bufio.Scanner` line splitting; each gets a direct counterpart here.  The
protocol text is ASCII, where Go byte positions and Lean character positions
coincide. -/

/-- Go strings.HasPrefix applied to s and pfx. -/
def hasPfx (s pfx : String) : Bool :=
  pfx.toList.isPrefixOf s.toList

/-- Go strings.TrimPrefix: drop `pfx` when present, else unchanged. -/
def dropPfx (s pfx : String) : String :=
  if hasPfx s pfx then String.mk (s.toList.drop pfx.toList.length) else s

/-- Go strings.Join with the given separator. -/
def strJoin (sep : String) : List String → String
  | [] => ""
  | [s] => s
  | s :: rest => s ++ sep ++ strJoin sep rest

/-- Go strings.Contains: some suffix of `s` starts with `sub`. -/
def strContains (s sub : String) : Bool :=
  (s.toList.tails).any fun t => sub.toList.isPrefixOf t

/-- Go strings.LastIndex for the slash character: the index of the last slash,
or `-1` when there is none. -/
def lastSlashIndex (s : String) : Int :=
  match (s.toList.reverse).findIdx? (fun c => c == '/') with
  | some j => ((s.toList.length - 1 - j : Nat) : Int)
  | none => -1

/-- Go slicing s[:n] over characters. -/
def strTake (s : String) (n : Nat) : String :=
  String.mk (s.toList.take n)

/-- Go strings.TrimSpace restricted to the ASCII whitespace the SSE code can
meet. -/
def strTrimSpace (s : String) : String :=
  let ws : Char → Bool := fun c => c == ' ' || c == '\t' || c == '\n' || c == '\r'
  String.mk (((s.toList.dropWhile ws).reverse.dropWhile ws).reverse)

/-- One emitted `bufio.Scanner` line from the reversed accumulator, with a
trailing carriage return stripped as `bufio.ScanLines` does. -/
def mkScanLine (accRev : List Char) : String :=
  match accRev with
  | '\r' :: rest => String.mk rest.reverse
  | _ => String.mk accRev.reverse

/-- Helper for `splitLines`: walk the characters, accumulating the current
line in reverse. -/
def splitLinesAux : List Char → List Char → List String
  | [], accRev => if accRev.isEmpty then [] else [mkScanLine accRev]
  | '\n' :: rest, accRev => mkScanLine accRev :: splitLinesAux rest []
  | c :: rest, accRev => splitLinesAux rest (c :: accRev)

/-- The token sequence a `bufio.Scanner` with `ScanLines` produces on `s`:
newline-separated lines, trailing `\r` stripped, and no empty final token
after a terminating newline. -/
def splitLines (s : String) : List String :=
  splitLinesAux s.toList []

/-! Section: JSON-RPC message structs

The four wire structs of the `mcp-golang` `transport` package.  The package
itself is a dependency, not part of this repository, so its generated
`UnmarshalJSON` methods are not under `src/`; the decode functions below are
modelled from the spec's discrimination rule: a Request needs `id`, `method`
and the version marker; a Response needs `id` and `result`; an Error needs
`id` and `error`; a Notification needs `method`, the marker, and no `id`;
and in every case the version marker field must decode as a string for the
struct decode to bind it. -/

structure BaseJSONRPCResponse where
  jsonrpc : String
  id : Int
  result : Json


structure BaseJSONRPCError where
  jsonrpc : String
  id : Int
  code : Int
  message : String
  data : Option Json


structure BaseJSONRPCNotification where
  jsonrpc : String
  method : String
  params : Option Json


structure BaseJSONRPCRequest where
  jsonrpc : String
  id : Int
  method : String
  params : Option Json


/-- Look a key up in a JSON object's fields with Go map semantics: the last
occurrence of a duplicated key wins. -/
def lookupLast (fields : List (String × Json)) (key : String) : Option Json :=
  match fields.reverse.find? (fun kv => kv.1 == key) with
  | some kv => some kv.2
  | none => none

/-- Modelled from the spec: the protocol-version marker field must bind as a
JSON string for a struct decode to succeed. -/
def decodeJsonrpc (fields : List (String × Json)) : Option String :=
  match lookupLast fields "jsonrpc" with
  | some (.str v) => some v
  | _ => none

/-- Modelled from the spec: a JSON-RPC `id` field, bound from a JSON
number. -/
def decodeId (fields : List (String × Json)) : Option Int :=
  match lookupLast fields "id" with
  | some (.num n) => some n
  | _ => none

/-- Modelled from the spec: decoding a payload as a Response requires the
marker, `id` and `result` fields (id+result → response). -/
def decodeResponse (j : Json) : Option BaseJSONRPCResponse :=
  match j with
  | .obj fields =>
    match decodeJsonrpc fields, decodeId fields, lookupLast fields "result" with
    | some v, some i, some res => some ⟨v, i, res⟩
    | _, _, _ => none
  | _ => none

/-- Modelled from the spec: decoding a payload as an Error requires the
marker, `id` and an `error` object carrying integer `code` and string
`message`, with `data` optional (id+error → error). -/
def decodeError (j : Json) : Option BaseJSONRPCError :=
  match j with
  | .obj fields =>
    match decodeJsonrpc fields, decodeId fields, lookupLast fields "error" with
    | some v, some i, some (.obj inner) =>
      match lookupLast inner "code", lookupLast inner "message" with
      | some (.num c), some (.str m) => some ⟨v, i, c, m, lookupLast inner "data"⟩
      | _, _ => none
    | _, _, _ => none
  | _ => none

/-- Modelled from the spec: decoding a payload as a Notification requires the
marker and `method` and the absence of `id` (method+no id → notification);
`params` is optional. -/
def decodeNotification (j : Json) : Option BaseJSONRPCNotification :=
  match j with
  | .obj fields =>
    match decodeJsonrpc fields, lookupLast fields "method", lookupLast fields "id" with
    | some v, some (.str m), none => some ⟨v, m, lookupLast fields "params"⟩
    | _, _, _ => none
  | _ => none

/-- Modelled from the spec: decoding a payload as a Request requires the
marker, `id` and `method` (id+method → request); `params` is optional. -/
def decodeRequest (j : Json) : Option BaseJSONRPCRequest :=
  match j with
  | .obj fields =>
    match decodeJsonrpc fields, decodeId fields, lookupLast fields "method" with
    | some v, some i, some (.str m) => some ⟨v, i, m, lookupLast fields "params"⟩
    | _, _, _ => none
  | _ => none

/-- The tagged envelope `transport.BaseJsonRpcMessage` produced by the
`NewBaseMessage*` wrappers when a payload has been classified. -/
inductive ClassifiedMessage where
  | response (r : BaseJSONRPCResponse)
  | jsonError (e : BaseJSONRPCError)
  | jsonNotification (n : BaseJSONRPCNotification)
  | request (q : BaseJSONRPCRequest)


/-- The shared classification logic of `SSEClientTransport.handleJSONResponse`
and `TraditionalSSETransport.handleMessage`: try Response, then Error, then
Notification, then Request, accepting the first variant whose decode succeeds
and whose `Jsonrpc` field is non-empty; `none` is the classification
failure. -/
def classify (j : Json) : Option ClassifiedMessage :=
  match decodeResponse j with
  | some r =>
    if r.jsonrpc ≠ "" then some (.response r) else classifyAfterResponse j
  | none => classifyAfterResponse j
where
  classifyAfterResponse (j : Json) : Option ClassifiedMessage :=
    match decodeError j with
    | some e =>
      if e.jsonrpc ≠ "" then some (.jsonError e) else classifyAfterError j
    | none => classifyAfterError j
  classifyAfterError (j : Json) : Option ClassifiedMessage :=
    match decodeNotification j with
    | some n =>
      if n.jsonrpc ≠ "" then some (.jsonNotification n) else classifyAfterNotification j
    | none => classifyAfterNotification j
  classifyAfterNotification (j : Json) : Option ClassifiedMessage :=
    match decodeRequest j with
    | some q => if q.jsonrpc ≠ "" then some (.request q) else none
    | none => none

/-- Classification of raw bytes: `json.Unmarshal` both parses and binds, so
an unparseable body fails every variant. -/
def classifyStr (body : String) : Option ClassifiedMessage :=
  match parseJson body with
  | some j => classify j
  | none => none

/-! Section: Go map semantics and re-marshalling

`cleanMessage` decodes the params bytes into a Go string-keyed map,
filters out nulls, and re-marshals.  `json.Unmarshal` into a map keeps the
last value for a duplicated key; `json.Marshal` of a map writes the keys in
sorted order. -/

/-- Whether a decoded value is the JSON null literal (Go: the nil
interface). -/
def Json.isNull : Json → Bool
  | .null => true
  | _ => false

/-- Store a key in a Go map: replace the value when the key exists, insert it
otherwise. -/
def mapInsert (m : List (String × Json)) (k : String) (v : Json) : List (String × Json) :=
  if m.any (fun kv => kv.1 == k) then
    m.map (fun kv => if kv.1 == k then (k, v) else kv)
  else m ++ [(k, v)]

/-- Decoding params bytes into a Go string-keyed map, as json.Unmarshal does: it succeeds on a JSON object
(later duplicates of a key overwrite earlier ones) and on `null` (leaving the
map empty); any other document is a decode error. -/
def jsonToMap : Json → Option (List (String × Json))
  | .obj fields => some (fields.foldl (fun m kv => mapInsert m kv.1 kv.2) [])
  | .null => some []
  | _ => none

/-- Insert one entry into a key-sorted list. -/
def insertByKey (kv : String × Json) : List (String × Json) → List (String × Json)
  | [] => [kv]
  | x :: xs => if kv.1 ≤ x.1 then kv :: x :: xs else x :: insertByKey kv xs

/-- Sort entries by key, as `json.Marshal` orders a map's keys. -/
def sortByKey (m : List (String × Json)) : List (String × Json) :=
  m.foldr insertByKey []

/-- Marshalling a Go string-keyed map, as json.Marshal does: an object whose fields are
the map's entries in key order.  It cannot fail on values that themselves came
out of `json.Unmarshal`. -/
def marshalMap (m : List (String × Json)) : Json :=
  .obj (sortByKey m)

/-! Section: The message envelope and the three cleanMessage copies -/

/-- The envelope transport.BaseJsonRpcMessage: the tagged union with one pointer per
variant.  `cleanMessage` reads and rewrites only the request component.
A request's `params` field is `json.RawMessage` bytes; `none` models
zero-length bytes (the `len(...) == 0` guard) and `some j` models bytes that
parse as the document `j`.  On bytes that do not parse, every copy of
`cleanMessage` returns the message unchanged, so that case adds nothing to
the claims about it. -/
structure BaseJsonRpcMessage where
  jsonRpcRequest : Option BaseJSONRPCRequest
  jsonRpcResponse : Option BaseJSONRPCResponse
  jsonRpcError : Option BaseJSONRPCError
  jsonRpcNotification : Option BaseJSONRPCNotification

namespace CleaningStdioTransport

/-- The function CleaningStdioTransport.cleanMessage: strip null-valued entries from a
request's params; when stripping empties the map, set the params to the
literal empty object; on decode failure return the message unchanged. -/
def cleanMessage (msg : Option BaseJsonRpcMessage) : Option BaseJsonRpcMessage :=
  match msg with
  | none => none
  | some m =>
    match m.jsonRpcRequest with
    | none => some m
    | some req =>
      match req.params with
      | none => some m
      | some paramsDoc =>
        match jsonToMap paramsDoc with
        | none => some m
        | some params =>
          let cleaned := params.filter (fun kv => !kv.2.isNull)
          if cleaned.isEmpty then
            some { m with jsonRpcRequest := some { req with params := some (.obj []) } }
          else
            some { m with jsonRpcRequest := some { req with params := some (marshalMap cleaned) } }

end CleaningStdioTransport

namespace SSEClientTransport

/-- The function SSEClientTransport.cleanMessage: same stripping, but with no explicit
empty-map branch — an empty map is simply re-marshalled. -/
def cleanMessage (msg : Option BaseJsonRpcMessage) : Option BaseJsonRpcMessage :=
  match msg with
  | none => none
  | some m =>
    match m.jsonRpcRequest with
    | none => some m
    | some req =>
      match req.params with
      | none => some m
      | some paramsDoc =>
        match jsonToMap paramsDoc with
        | none => some m
        | some params =>
          let cleaned := params.filter (fun kv => !kv.2.isNull)
          some { m with jsonRpcRequest := some { req with params := some (marshalMap cleaned) } }

end SSEClientTransport

namespace TraditionalSSETransport

/-- The function TraditionalSSETransport.cleanMessage: textually the same function as
`CleaningStdioTransport.cleanMessage`. -/
def cleanMessage (msg : Option BaseJsonRpcMessage) : Option BaseJsonRpcMessage :=
  match msg with
  | none => none
  | some m =>
    match m.jsonRpcRequest with
    | none => some m
    | some req =>
      match req.params with
      | none => some m
      | some paramsDoc =>
        match jsonToMap paramsDoc with
        | none => some m
        | some params =>
          let cleaned := params.filter (fun kv => !kv.2.isNull)
          if cleaned.isEmpty then
            some { m with jsonRpcRequest := some { req with params := some (.obj []) } }
          else
            some { m with jsonRpcRequest := some { req with params := some (marshalMap cleaned) } }

end TraditionalSSETransport

/-! Section: HTTP modelling

An HTTP exchange is modelled by the response the `http.Client` hands back;
issuing the request is visible in the model output as the request headers
(and, for the Discovery-Stream transport, whether a request went out at
all). -/

/-- A header set; `http.Header.Get` returns the empty string for an absent
header. -/
def getHeader (hs : List (String × String)) (k : String) : String :=
  match hs.find? (fun kv => kv.1 == k) with
  | some kv => kv.2
  | none => ""

/-- Go http.Header.Set: replace any existing value for the key with the new
one. -/
def setHeader (hs : List (String × String)) (k v : String) : List (String × String) :=
  hs.filter (fun kv => kv.1 ≠ k) ++ [(k, v)]

/-- The parts of an `http.Response` the transports read. -/
structure HttpResponse where
  status : Nat
  headers : List (String × String)
  body : String

namespace SSEClientTransport

/-- Mutable state of an `SSEClientTransport`: the configured URL and caller
headers, the learned session id, and whether a message handler has been
registered. -/
structure State where
  baseURL : String
  headers : List (String × String)
  sessionID : String
  handlerSet : Bool

/-- The constructor NewSSEClientTransport: fresh instance with no headers and no session
id (and, until `SetMessageHandler` runs, no handler). -/
def new (baseURL : String) : State :=
  { baseURL := baseURL, headers := [], sessionID := "", handlerSet := false }

/-- Registering a message handler (SetMessageHandler) on the model: afterwards a handler is registered. -/
def setMessageHandler (st : State) : State :=
  { st with handlerSet := true }

/-- The method handleJSONResponse: with no handler registered, succeed at once;
otherwise classify the body, dispatch on success, and fail with the raw
payload in the diagnostic when no variant matches.  The returned list is the
sequence of messages handed to the handler. -/
def handleJSONResponse (handlerSet : Bool) (body : String) :
    Except String (List ClassifiedMessage) :=
  if !handlerSet then .ok []
  else
    match classifyStr body with
    | some m => .ok [m]
    | none => .error ("received invalid response: " ++ body)

/-- Outcome of draining an event-stream body: the messages dispatched before
the loop ended, and the error `parseSSEResponse` returned, if any. -/
structure ParseOut where
  dispatched : List ClassifiedMessage
  err : Option String

/-- The scanner loop of `parseSSEResponse`: accumulate `data: ` lines, and on
a blank line with pending data classify the joined payload; an error from
`handleJSONResponse` is returned at once, abandoning the rest of the body.
After the loop, leftover data lines are processed the same way. -/
def parseSSELoop (handlerSet : Bool) :
    List String → List String → List ClassifiedMessage → ParseOut
  | [], dataLines, acc =>
    if dataLines.isEmpty then { dispatched := acc, err := none }
    else
      match handleJSONResponse handlerSet (strJoin "\n" dataLines) with
      | .ok ms => { dispatched := acc ++ ms, err := none }
      | .error e => { dispatched := acc, err := some e }
  | line :: rest, dataLines, acc =>
    if hasPfx line "data: " then
      parseSSELoop handlerSet rest (dataLines ++ [dropPfx line "data: "]) acc
    else if line = "" && !dataLines.isEmpty then
      match handleJSONResponse handlerSet (strJoin "\n" dataLines) with
      | .ok ms => parseSSELoop handlerSet rest [] (acc ++ ms)
      | .error e => { dispatched := acc, err := some e }
    else
      parseSSELoop handlerSet rest dataLines acc

/-- The method parseSSEResponse over the scanner's lines (a clean read: the model's
scanner reports no I/O error). -/
def parseSSEResponse (handlerSet : Bool) (lines : List String) : ParseOut :=
  parseSSELoop handlerSet lines [] []

/-- The request headers `Send` attaches: content type, accept, the caller's
headers, and — when a session id has been observed — the session header,
set last so it wins over any caller header of the same name. -/
def buildRequestHeaders (st : State) : List (String × String) :=
  let h := setHeader [] "Content-Type" "application/json"
  let h := setHeader h "Accept" "application/json, text/event-stream"
  let h := st.headers.foldl (fun h kv => setHeader h kv.1 kv.2) h
  if st.sessionID ≠ "" then setHeader h "Mcp-Session-Id" st.sessionID else h

/-- The session capture step of `Send`: a non-empty `Mcp-Session-Id` response
header replaces the stored session id. -/
def captureSession (st : State) (resp : HttpResponse) : State :=
  let sid := getHeader resp.headers "Mcp-Session-Id"
  if sid ≠ "" then { st with sessionID := sid } else st

/-- What one `Send` call did: the state afterwards, the headers of the POST
it issued, and its result. -/
structure SendOut where
  state : State
  requestHeaders : List (String × String)
  dispatched : List ClassifiedMessage
  result : Except String Unit

/-- The method SSEClientTransport.Send after the POST came back as `resp`: capture the
session id (before the status check, as the source does), fail on a
non-200 status, drain an event-stream body through the SSE parser, and
otherwise classify a non-empty plain body; an empty body succeeds with
nothing dispatched. -/
def Send (st : State) (resp : HttpResponse) : SendOut :=
  let reqHeaders := buildRequestHeaders st
  let st' := captureSession st resp
  if resp.status ≠ 200 then
    { state := st', requestHeaders := reqHeaders, dispatched := [],
      result := .error ("server returned error: " ++ resp.body) }
  else if strContains (getHeader resp.headers "Content-Type") "text/event-stream" then
    let out := parseSSEResponse st.handlerSet (splitLines resp.body)
    { state := st', requestHeaders := reqHeaders, dispatched := out.dispatched,
      result := match out.err with | some e => .error e | none => .ok () }
  else if resp.body ≠ "" then
    match handleJSONResponse st.handlerSet resp.body with
    | .ok ms =>
      { state := st', requestHeaders := reqHeaders, dispatched := ms, result := .ok () }
    | .error e =>
      { state := st', requestHeaders := reqHeaders, dispatched := [], result := .error e }
  else
    { state := st', requestHeaders := reqHeaders, dispatched := [], result := .ok () }

end SSEClientTransport

namespace TraditionalSSETransport

/-- Mutable state of a `TraditionalSSETransport`: the GET URL, the resolved
POST endpoint (empty until the handshake delivers it), caller headers, the
started flag, whether the GET body is held open, and whether a message
handler is registered. -/
structure State where
  sseURL : String
  postEndpoint : String
  headers : List (String × String)
  started : Bool
  streamOpen : Bool
  handlerSet : Bool

/-- The constructor NewTraditionalSSETransport. -/
def new (sseURL : String) : State :=
  { sseURL := sseURL, postEndpoint := "", headers := [], started := false,
    streamOpen := false, handlerSet := false }

/-- The method TraditionalSSETransport.resolveEndpoint: an absolute endpoint is used
verbatim; otherwise the last path segment of the GET URL is cut off (only
when the last slash sits after the scheme separator, index > 8) and the
endpoint is joined with exactly one slash. -/
def resolveEndpoint (sseURL endpoint : String) : String :=
  if hasPfx endpoint "http://" || hasPfx endpoint "https://" then endpoint
  else
    let base := if lastSlashIndex sseURL > 8 then
        strTake sseURL (lastSlashIndex sseURL).toNat
      else sseURL
    if hasPfx endpoint "/" then base ++ endpoint
    else base ++ "/" ++ endpoint

/-- The method TraditionalSSETransport.handleMessage: same classification chain as the
Streamable transport, but an unclassifiable payload is silently dropped.  The
returned list is the sequence of messages handed to the handler. -/
def handleMessage (handlerSet : Bool) (data : String) : List ClassifiedMessage :=
  if !handlerSet then []
  else
    match classifyStr data with
    | some m => [m]
    | none => []

/-- What the GET for `Start` returned, when the connection attempt reached
the server at all. -/
structure GetResponse where
  status : Nat
  contentType : String
  body : String

/-- Which of the three arms of the `select` in `Start` fires first: the
endpoint event, a terminal reader error, or the caller's cancellation. -/
inductive HandshakeOutcome where
  | endpointEvent (data : String)
  | readerError (e : String)
  | cancelled

/-- What one `Start` call did: the state afterwards, whether it issued the
GET, and its result. -/
structure StartOut where
  state : State
  getIssued : Bool
  result : Except String Unit

/-- The method TraditionalSSETransport.Start: a second call on a started transport
returns at once; otherwise issue the GET (`net = none` models a connection
failure), check status and content type, mark the transport started with the
stream open, and block on the handshake: the `endpoint` event resolves the
POST endpoint, while a reader error or cancellation is a reported failure. -/
def Start (st : State) (net : Option GetResponse) (handshake : HandshakeOutcome) : StartOut :=
  if st.started then { state := st, getIssued := false, result := .ok () }
  else
    match net with
    | none =>
      { state := st, getIssued := true,
        result := .error "failed to connect to SSE endpoint" }
    | some resp =>
      if resp.status ≠ 200 then
        { state := st, getIssued := true, result := .error "SSE connection failed" }
      else if !strContains resp.contentType "text/event-stream" then
        { state := st, getIssued := true,
          result := .error ("unexpected content type: " ++ resp.contentType) }
      else
        let st1 := { st with started := true, streamOpen := true }
        match handshake with
        | .endpointEvent data =>
          { state := { st1 with postEndpoint := resolveEndpoint st.sseURL data },
            getIssued := true, result := .ok () }
        | .readerError e =>
          { state := st1, getIssued := true,
            result := .error ("failed to get endpoint: " ++ e) }
        | .cancelled =>
          { state := st1, getIssued := true, result := .error "context canceled" }

/-- What one `Send` call did: the POST it issued (endpoint and headers), if
any, and its result. -/
structure SendOut where
  requestIssued : Option (String × List (String × String))
  result : Except String Unit

/-- The method TraditionalSSETransport.Send with the POST answered by `resp`: an
unresolved endpoint is a reported failure before any request goes out;
otherwise the cleaned message is POSTed with the caller's headers (no session
header in this mode) and any status other than 200 or 202 is a failure. -/
def Send (st : State) (message : Option BaseJsonRpcMessage) (resp : HttpResponse) : SendOut :=
  if st.postEndpoint = "" then
    { requestIssued := none,
      result := .error "transport not started or endpoint not received" }
  else
    let _cleaned := cleanMessage message
    let reqHeaders :=
      st.headers.foldl (fun h kv => setHeader h kv.1 kv.2)
        (setHeader [] "Content-Type" "application/json")
    if resp.status ≠ 200 && resp.status ≠ 202 then
      { requestIssued := some (st.postEndpoint, reqHeaders),
        result := .error ("server returned error: " ++ resp.body) }
    else
      { requestIssued := some (st.postEndpoint, reqHeaders), result := .ok () }

end TraditionalSSETransport
/-- C1: the classifier tries Response, Error, Notification, Request in that
order, accepting the first variant that decodes with a non-empty version
marker; on the spec's five test payloads it yields Response, Error,
Notification, Request, and a classification failure respectively, the last
also surfacing as an error from `handleJSONResponse` and a silent drop in
`handleMessage`. -/
theorem classifier_decode_order_table :
    classifyStr "\x7b\"jsonrpc\":\"2.0\",\"id\":1,\"result\":\x7b\x7d\x7d" =
      some (.response ⟨"2.0", 1, .obj []⟩) ∧
    classifyStr "\x7b\"jsonrpc\":\"2.0\",\"id\":1,\"error\":\x7b\"code\":-1,\"message\":\"x\"\x7d\x7d" =
      some (.jsonError ⟨"2.0", 1, -1, "x", none⟩) ∧
    classifyStr "\x7b\"jsonrpc\":\"2.0\",\"method\":\"ping\"\x7d" =
      some (.jsonNotification ⟨"2.0", "ping", none⟩) ∧
    classifyStr "\x7b\"jsonrpc\":\"2.0\",\"id\":1,\"method\":\"ping\"\x7d" =
      some (.request ⟨"2.0", 1, "ping", none⟩) ∧
    classifyStr "\x7b\"id\":1,\"result\":\x7b\x7d\x7d" = none ∧
    SSEClientTransport.handleJSONResponse true "\x7b\"id\":1,\"result\":\x7b\x7d\x7d" =
      .error ("received invalid response: " ++ "\x7b\"id\":1,\"result\":\x7b\x7d\x7d") ∧
    TraditionalSSETransport.handleMessage true "\x7b\"id\":1,\"result\":\x7b\x7d\x7d" = [] :=
  ⟨rfl, rfl, rfl, rfl, rfl, rfl, rfl⟩

/-- C5: endpoint resolution — a relative endpoint with or without a leading
slash resolves against the GET URL with its last segment cut off, and an
absolute endpoint is returned unchanged. -/
theorem resolve_endpoint_cases :
    TraditionalSSETransport.resolveEndpoint "https://h/sse" "/msg" = "https://h/msg" ∧
    TraditionalSSETransport.resolveEndpoint "https://h/sse" "msg" = "https://h/msg" ∧
    ∀ u e, (hasPfx e "http://" || hasPfx e "https://") = true →
      TraditionalSSETransport.resolveEndpoint u e = e := by
  refine ⟨rfl, rfl, fun u e h => ?_⟩
  unfold TraditionalSSETransport.resolveEndpoint
  simp [h]

/-- Closed instance of the absolute-endpoint case of C5. -/
theorem resolve_endpoint_cases_witness :
    TraditionalSSETransport.resolveEndpoint "https://h/sse" "https://other/x" = "https://other/x" :=
  resolve_endpoint_cases.2.2 "https://h/sse" "https://other/x" (by decide)

/-- C6: `Send` on a Discovery-Stream transport whose endpoint descriptor has
not been resolved reports a failure and issues no request. -/
theorem send_before_endpoint_fails (st : TraditionalSSETransport.State)
    (message : Option BaseJsonRpcMessage) (resp : HttpResponse)
    (h : st.postEndpoint = "") :
    TraditionalSSETransport.Send st message resp =
      { requestIssued := none,
        result := .error "transport not started or endpoint not received" } := by
  unfold TraditionalSSETransport.Send
  simp [h]

/-- Closed instance of C6 on a freshly constructed transport. -/
theorem send_before_endpoint_fails_witness :
    TraditionalSSETransport.Send (TraditionalSSETransport.new "https://h/sse") none
        ⟨200, [], ""⟩ =
      { requestIssued := none,
        result := .error "transport not started or endpoint not received" } :=
  send_before_endpoint_fails _ _ _ rfl
/-- A `Start` call on an already-started transport returns at once: success,
no GET, state untouched. -/
theorem start_on_started (st : TraditionalSSETransport.State)
    (net : Option TraditionalSSETransport.GetResponse)
    (hs : TraditionalSSETransport.HandshakeOutcome) (h : st.started = true) :
    TraditionalSSETransport.Start st net hs =
      { state := st, getIssued := false, result := .ok () } := by
  unfold TraditionalSSETransport.Start
  simp [h]

/-- A successful `Start` always leaves the started flag set: either it
returned early because the transport was already started, or it set the flag
before waiting on the handshake. -/
theorem start_ok_started (st : TraditionalSSETransport.State)
    (net : Option TraditionalSSETransport.GetResponse)
    (hs : TraditionalSSETransport.HandshakeOutcome)
    (h : (TraditionalSSETransport.Start st net hs).result = .ok ()) :
    (TraditionalSSETransport.Start st net hs).state.started = true := by
  unfold TraditionalSSETransport.Start at *
  by_cases hst : st.started
  · simp [hst]
  · simp [hst] at h ⊢
    cases net with
    | none => simp at h
    | some resp =>
      by_cases h200 : resp.status = 200
      · simp [h200] at h ⊢
        by_cases hct : strContains resp.contentType "text/event-stream"
        · simp [hct] at h ⊢
          cases hs <;> simp_all
        · simp [hct] at h
      · simp [h200] at h

/-- C7: after one successful `Start`, every further `Start` call succeeds at
once, issues no GET, and leaves the state (resolved endpoint, started flag,
open stream) unchanged. -/
theorem start_idempotent (st : TraditionalSSETransport.State)
    (net : Option TraditionalSSETransport.GetResponse)
    (hs : TraditionalSSETransport.HandshakeOutcome)
    (h : (TraditionalSSETransport.Start st net hs).result = .ok ()) :
    ∀ net' hs',
      TraditionalSSETransport.Start (TraditionalSSETransport.Start st net hs).state net' hs' =
        { state := (TraditionalSSETransport.Start st net hs).state,
          getIssued := false, result := .ok () } :=
  fun net' hs' => start_on_started _ net' hs' (start_ok_started st net hs h)

/-- Closed instance of C7: a fresh transport started successfully (GET 200
with an event-stream content type, endpoint event received), then started
again. -/
theorem start_idempotent_witness :
    TraditionalSSETransport.Start
        (TraditionalSSETransport.Start (TraditionalSSETransport.new "https://h/sse")
          (some ⟨200, "text/event-stream", ""⟩) (.endpointEvent "/msg")).state
        none .cancelled =
      { state := (TraditionalSSETransport.Start (TraditionalSSETransport.new "https://h/sse")
          (some ⟨200, "text/event-stream", ""⟩) (.endpointEvent "/msg")).state,
        getIssued := false, result := .ok () } :=
  start_idempotent (TraditionalSSETransport.new "https://h/sse")
    (some ⟨200, "text/event-stream", ""⟩) (.endpointEvent "/msg") rfl none .cancelled
/-- Reading back the header just set returns the value set. -/
theorem getHeader_setHeader (hs : List (String × String)) (k v : String) :
    getHeader (setHeader hs k v) k = v := by
  unfold getHeader setHeader
  rw [List.find?_append]
  have hnone : (hs.filter fun kv => kv.1 ≠ k).find? (fun kv => kv.1 == k) = none := by
    rw [List.find?_eq_none]
    intro x hx
    have := (List.mem_filter.mp hx).2
    simpa using this
  rw [hnone]
  simp

/-- The method Send always stores the captured session state, whatever the response
status and body were. -/
theorem send_state_eq_capture (st : SSEClientTransport.State) (resp : HttpResponse) :
    (SSEClientTransport.Send st resp).state = SSEClientTransport.captureSession st resp := by
  unfold SSEClientTransport.Send
  repeat first | rfl | split

/-- C4: a non-empty session id on a response is recorded and appears as the
`Mcp-Session-Id` request header of every later `Send` on the same instance,
while a freshly constructed instance sends no such header. -/
theorem session_token_replay :
    (∀ u v, ("Mcp-Session-Id", v) ∉
        SSEClientTransport.buildRequestHeaders (SSEClientTransport.new u)) ∧
    (∀ st resp, getHeader resp.headers "Mcp-Session-Id" ≠ "" →
      (SSEClientTransport.Send st resp).state.sessionID =
          getHeader resp.headers "Mcp-Session-Id" ∧
      getHeader
          (SSEClientTransport.buildRequestHeaders (SSEClientTransport.Send st resp).state)
          "Mcp-Session-Id" =
        getHeader resp.headers "Mcp-Session-Id") := by
  constructor
  · intro u v
    have : SSEClientTransport.buildRequestHeaders (SSEClientTransport.new u) =
        [("Content-Type", "application/json"),
         ("Accept", "application/json, text/event-stream")] := rfl
    rw [this]
    simp
  · intro st resp h
    have hsid : (SSEClientTransport.Send st resp).state.sessionID =
        getHeader resp.headers "Mcp-Session-Id" := by
      rw [send_state_eq_capture]
      unfold SSEClientTransport.captureSession
      simp [h]
    refine ⟨hsid, ?_⟩
    unfold SSEClientTransport.buildRequestHeaders
    rw [hsid]
    simp only [h, if_pos, ne_eq, not_false_iff]
    exact getHeader_setHeader _ _ _

/-- Closed instance of C4: a fresh instance learns session id "abc" from one
response and echoes it on the next request's headers. -/
theorem session_token_replay_witness :
    (SSEClientTransport.Send (SSEClientTransport.new "https://h/mcp")
        ⟨200, [("Mcp-Session-Id", "abc")], ""⟩).state.sessionID = "abc" ∧
    getHeader
        (SSEClientTransport.buildRequestHeaders
          (SSEClientTransport.Send (SSEClientTransport.new "https://h/mcp")
            ⟨200, [("Mcp-Session-Id", "abc")], ""⟩).state)
        "Mcp-Session-Id" = "abc" :=
  session_token_replay.2 (SSEClientTransport.new "https://h/mcp")
    ⟨200, [("Mcp-Session-Id", "abc")], ""⟩ (by decide)
/-- Inserting a null value into a map whose values are all null keeps every
value null. -/
theorem mapInsert_all_null (m : List (String × Json)) (k : String) (v : Json)
    (hm : ∀ kv ∈ m, kv.2 = Json.null) (hv : v = Json.null) :
    ∀ kv ∈ mapInsert m k v, kv.2 = Json.null := by
  unfold mapInsert
  split
  · intro kv hkv
    obtain ⟨x, hx, hmap⟩ := List.mem_map.mp hkv
    by_cases hxk : x.1 = k
    · simp [hxk] at hmap
      rw [← hmap]
      exact hv
    · simp [hxk] at hmap
      rw [← hmap]
      exact hm x hx
  · intro kv hkv
    rcases List.mem_append.mp hkv with h1 | h2
    · exact hm kv h1
    · simp at h2
      rw [h2]
      exact hv

/-- Folding null-valued entries into a map whose values are all null keeps
every value null. -/
theorem foldl_mapInsert_all_null (fields : List (String × Json)) :
    ∀ acc, (∀ kv ∈ acc, kv.2 = Json.null) → (∀ kv ∈ fields, kv.2 = Json.null) →
      ∀ kv ∈ fields.foldl (fun m kv => mapInsert m kv.1 kv.2) acc, kv.2 = Json.null := by
  induction fields with
  | nil => intro acc ha _ kv hkv; exact ha kv hkv
  | cons f rest ih =>
    intro acc ha hf
    simp only [List.foldl_cons]
    exact ih _ (mapInsert_all_null acc f.1 f.2 ha (hf f (by simp)))
      (fun kv hkv => hf kv (by simp [hkv]))

/-- C3: a request whose non-empty params object holds only null values is
normalized, by the stdio wrapper and the Discovery-Stream transport alike, to
a request whose params are exactly the empty-object literal. -/
theorem clean_null_only_params_empty_object (m : BaseJsonRpcMessage)
    (req : BaseJSONRPCRequest) (fields : List (String × Json))
    (hreq : m.jsonRpcRequest = some req)
    (hp : req.params = some (.obj fields))
    (hne : fields ≠ [])
    (hnull : ∀ kv ∈ fields, kv.2 = Json.null) :
    CleaningStdioTransport.cleanMessage (some m) =
      some { m with jsonRpcRequest := some { req with params := some (.obj []) } } ∧
    TraditionalSSETransport.cleanMessage (some m) =
      some { m with jsonRpcRequest := some { req with params := some (.obj []) } } := by
  have hmap : ∀ kv ∈ fields.foldl (fun mm kv => mapInsert mm kv.1 kv.2) [],
      kv.2 = Json.null :=
    foldl_mapInsert_all_null fields [] (by simp) hnull
  have hfilter : ((fields.foldl (fun mm kv => mapInsert mm kv.1 kv.2) []).filter
      (fun kv => !kv.2.isNull)) = [] := by
    rw [List.filter_eq_nil_iff]
    intro kv hkv
    simp [hmap kv hkv, Json.isNull]
  constructor
  · unfold CleaningStdioTransport.cleanMessage
    simp [hreq, hp, jsonToMap, hfilter]
  · unfold TraditionalSSETransport.cleanMessage
    simp [hreq, hp, jsonToMap, hfilter]

/-- Closed instance of C3: the library's `cursor: null` params normalize to
the empty-object literal. -/
theorem clean_null_only_params_empty_object_witness :
    CleaningStdioTransport.cleanMessage
        (some ⟨some ⟨"2.0", 1, "tools/list", some (.obj [("cursor", .null)])⟩,
          none, none, none⟩) =
      some ⟨some ⟨"2.0", 1, "tools/list", some (.obj [])⟩, none, none, none⟩ ∧
    TraditionalSSETransport.cleanMessage
        (some ⟨some ⟨"2.0", 1, "tools/list", some (.obj [("cursor", .null)])⟩,
          none, none, none⟩) =
      some ⟨some ⟨"2.0", 1, "tools/list", some (.obj [])⟩, none, none, none⟩ :=
  clean_null_only_params_empty_object
    ⟨some ⟨"2.0", 1, "tools/list", some (.obj [("cursor", .null)])⟩, none, none, none⟩
    ⟨"2.0", 1, "tools/list", some (.obj [("cursor", .null)])⟩
    [("cursor", .null)] rfl rfl (by simp) (by simp)
/-- A non-null value is not the null literal. -/
theorem Json.isNull_eq_false {j : Json} (h : j ≠ Json.null) : j.isNull = false := by
  cases j
  case null => exact absurd rfl h
  all_goals rfl

/-- Folding an association list with pairwise-distinct keys into a Go map
just appends its entries. -/
theorem foldl_mapInsert_nodup (fields : List (String × Json)) :
    ∀ acc : List (String × Json),
      (∀ kv ∈ fields, ∀ kv' ∈ acc, kv.1 ≠ kv'.1) →
      (fields.map Prod.fst).Nodup →
      fields.foldl (fun m kv => mapInsert m kv.1 kv.2) acc = acc ++ fields := by
  induction fields with
  | nil => intro acc _ _; simp
  | cons f rest ih =>
    intro acc hdisj hnodup
    have hnodup' : f.1 ∉ rest.map Prod.fst ∧ (rest.map Prod.fst).Nodup := by
      rw [List.map_cons, List.nodup_cons] at hnodup
      exact hnodup
    simp only [List.foldl_cons]
    have hins : mapInsert acc f.1 f.2 = acc ++ [f] := by
      unfold mapInsert
      have hany : acc.any (fun kv => kv.1 == f.1) = false := by
        rw [List.any_eq_false]
        intro kv hkv
        have := hdisj f (by simp) kv hkv
        simp only [beq_iff_eq]
        exact fun hk => this hk.symm
      simp [hany]
    rw [hins, ih (acc ++ [f]) ?_ hnodup'.2]
    · simp
    · intro kv hkv kv' hkv'
      rcases List.mem_append.mp hkv' with h1 | h2
      · exact hdisj kv (by simp [hkv]) kv' h1
      · simp only [List.mem_singleton] at h2
        subst h2
        intro hk
        exact hnodup'.1 (hk ▸ List.mem_map_of_mem Prod.fst hkv)

/-- The function insertByKey permutes consing: inserting is a permutation of consing. -/
theorem insertByKey_perm (kv : String × Json) (l : List (String × Json)) :
    (insertByKey kv l).Perm (kv :: l) := by
  induction l with
  | nil => exact List.Perm.refl _
  | cons x xs ih =>
    unfold insertByKey
    split
    · exact List.Perm.refl _
    · exact ((ih).cons x).trans (List.Perm.swap kv x xs)

/-- Marshalling order: `sortByKey` permutes the entries. -/
theorem sortByKey_perm (m : List (String × Json)) : (sortByKey m).Perm m := by
  induction m with
  | nil => exact List.Perm.refl _
  | cons x xs ih =>
    unfold sortByKey at *
    simp only [List.foldr_cons]
    exact (insertByKey_perm x _).trans (ih.cons x)

/-- C8: on a request whose params object (distinct keys) holds no null
values, normalization — stdio wrapper and Streamable transport alike — only
re-marshals: the resulting params object holds exactly the same entries, up
to key order. -/
theorem clean_no_nulls_semantic_noop (m : BaseJsonRpcMessage)
    (req : BaseJSONRPCRequest) (fields : List (String × Json))
    (hreq : m.jsonRpcRequest = some req)
    (hp : req.params = some (.obj fields))
    (hnodup : (fields.map Prod.fst).Nodup)
    (hnonull : ∀ kv ∈ fields, kv.2 ≠ Json.null) :
    ∃ fields',
      CleaningStdioTransport.cleanMessage (some m) =
        some { m with jsonRpcRequest := some { req with params := some (.obj fields') } } ∧
      SSEClientTransport.cleanMessage (some m) =
        some { m with jsonRpcRequest := some { req with params := some (.obj fields') } } ∧
      fields'.Perm fields := by
  have hmap : fields.foldl (fun mm kv => mapInsert mm kv.1 kv.2) [] = fields := by
    have := foldl_mapInsert_nodup fields [] (by simp) hnodup
    simpa using this
  have hfilter : fields.filter (fun kv => !kv.2.isNull) = fields := by
    rw [List.filter_eq_self]
    intro kv hkv
    simp [Json.isNull_eq_false (hnonull kv hkv)]
  refine ⟨sortByKey fields, ?_, ?_, sortByKey_perm fields⟩
  · unfold CleaningStdioTransport.cleanMessage
    simp only [hreq, hp, jsonToMap, hmap, hfilter, marshalMap]
    by_cases hf : fields = []
    · subst hf; simp [sortByKey]
    · simp [hf, List.isEmpty_iff]
  · unfold SSEClientTransport.cleanMessage
    simp only [hreq, hp, jsonToMap, hmap, hfilter, marshalMap]

/-- Closed instance of C8 on a one-entry params object. -/
theorem clean_no_nulls_semantic_noop_witness :
    ∃ fields',
      CleaningStdioTransport.cleanMessage
          (some ⟨some ⟨"2.0", 1, "tools/call", some (.obj [("name", .str "t")])⟩,
            none, none, none⟩) =
        some ⟨some ⟨"2.0", 1, "tools/call", some (.obj fields')⟩, none, none, none⟩ ∧
      SSEClientTransport.cleanMessage
          (some ⟨some ⟨"2.0", 1, "tools/call", some (.obj [("name", .str "t")])⟩,
            none, none, none⟩) =
        some ⟨some ⟨"2.0", 1, "tools/call", some (.obj fields')⟩, none, none, none⟩ ∧
      fields'.Perm [("name", .str "t")] :=
  clean_no_nulls_semantic_noop
    ⟨some ⟨"2.0", 1, "tools/call", some (.obj [("name", .str "t")])⟩, none, none, none⟩
    ⟨"2.0", 1, "tools/call", some (.obj [("name", .str "t")])⟩
    [("name", .str "t")] rfl rfl (by simp) (by simp)
/-- C9: the three copies of `cleanMessage` compute the same function on every
message.  The stdio and Discovery-Stream copies are textually identical; the
Streamable copy lacks the explicit empty-map branch, but re-marshalling the
empty map is itself the empty-object literal. -/
theorem cleanMessage_copies_agree (msg : Option BaseJsonRpcMessage) :
    CleaningStdioTransport.cleanMessage msg = SSEClientTransport.cleanMessage msg ∧
    CleaningStdioTransport.cleanMessage msg = TraditionalSSETransport.cleanMessage msg := by
  refine ⟨?_, rfl⟩
  unfold CleaningStdioTransport.cleanMessage SSEClientTransport.cleanMessage
  cases msg with
  | none => rfl
  | some m =>
    dsimp only
    cases m.jsonRpcRequest with
    | none => rfl
    | some req =>
      dsimp only
      cases req.params with
      | none => rfl
      | some doc =>
        dsimp only
        cases jsonToMap doc with
        | none => rfl
        | some params =>
          dsimp only
          by_cases hc : (params.filter fun kv => !kv.2.isNull).isEmpty
          · rw [if_pos hc, List.isEmpty_iff.mp hc]
            rfl
          · rw [if_neg hc]
/-- With no handler registered, the SSE loop dispatches nothing and reports
no error, whatever the body lines are. -/
theorem parseSSELoop_no_handler (lines : List String) :
    ∀ dataLines acc, SSEClientTransport.parseSSELoop false lines dataLines acc =
      { dispatched := acc, err := none } := by
  induction lines with
  | nil =>
    intro dataLines acc
    unfold SSEClientTransport.parseSSELoop
    by_cases h : dataLines.isEmpty
    · simp [h]
    · simp [h, SSEClientTransport.handleJSONResponse]
  | cons line rest ih =>
    intro dataLines acc
    unfold SSEClientTransport.parseSSELoop
    by_cases h1 : hasPfx line "data: "
    · simp [h1, ih]
    · simp [h1, SSEClientTransport.handleJSONResponse, ih]

/-- C10: with no message handler registered, `handleJSONResponse` succeeds on
every body without classifying it, and a 200-status `Send` succeeds with
nothing dispatched whatever the body — plain or event stream — contained. -/
theorem no_handler_no_classification_error :
    (∀ body, SSEClientTransport.handleJSONResponse false body = .ok []) ∧
    (∀ st resp, st.handlerSet = false → resp.status = 200 →
      (SSEClientTransport.Send st resp).result = .ok () ∧
      (SSEClientTransport.Send st resp).dispatched = []) := by
  refine ⟨fun body => rfl, fun st resp hset h200 => ?_⟩
  unfold SSEClientTransport.Send
  rw [hset]
  simp [h200, SSEClientTransport.parseSSEResponse, parseSSELoop_no_handler,
    SSEClientTransport.handleJSONResponse]

/-- Closed instance of C10: a fresh (handler-less) instance receiving an
unclassifiable plain body still succeeds. -/
theorem no_handler_no_classification_error_witness :
    (SSEClientTransport.Send (SSEClientTransport.new "https://h/mcp")
        ⟨200, [], "notjson"⟩).result = .ok () ∧
    (SSEClientTransport.Send (SSEClientTransport.new "https://h/mcp")
        ⟨200, [], "notjson"⟩).dispatched = [] :=
  no_handler_no_classification_error.2 (SSEClientTransport.new "https://h/mcp")
    ⟨200, [], "notjson"⟩ rfl rfl
/-- A string prefixed with `p` has prefix `p`. -/
theorem hasPfx_append (p s : String) : hasPfx (p ++ s) p = true := by
  unfold hasPfx
  have : (p ++ s).toList = p.toList ++ s.toList := by
    cases p; cases s; rfl
  rw [this]
  simp only [ List.isPrefixOf_iff_prefix]
  exact List.prefix_append _ _

/-- Trimming the prefix it was built from gives the suffix back. -/
theorem dropPfx_append (p s : String) : dropPfx (p ++ s) p = s := by
  unfold dropPfx
  rw [hasPfx_append]
  have h1 : (p ++ s).toList = p.toList ++ s.toList := by
    cases p; cases s; rfl
  simp only [if_pos]
  rw [h1, List.drop_left]
  cases s; rfl

/-- C2 counterexample: with a handler registered, an event-stream body whose
first event is unclassifiable makes `Send` fail, and the well-formed event
after it is not dispatched — against the claim that the bad event is dropped
and processing continues. -/
theorem sse_bad_event_claim_cex :
    ¬ (((SSEClientTransport.Send
          (SSEClientTransport.setMessageHandler (SSEClientTransport.new "https://h/mcp"))
          ⟨200, [("Content-Type", "text/event-stream")],
            "data: notjson\n\ndata: \x7b\"jsonrpc\":\"2.0\",\"id\":1,\"result\":\x7b\x7d\x7d\n\n"⟩).result
        = .ok ()) ∧
       (SSEClientTransport.Send
          (SSEClientTransport.setMessageHandler (SSEClientTransport.new "https://h/mcp"))
          ⟨200, [("Content-Type", "text/event-stream")],
            "data: notjson\n\ndata: \x7b\"jsonrpc\":\"2.0\",\"id\":1,\"result\":\x7b\x7d\x7d\n\n"⟩).dispatched
        = [.response ⟨"2.0", 1, .obj []⟩]) := by
  intro h
  have hres : (SSEClientTransport.Send
      (SSEClientTransport.setMessageHandler (SSEClientTransport.new "https://h/mcp"))
      ⟨200, [("Content-Type", "text/event-stream")],
        "data: notjson\n\ndata: \x7b\"jsonrpc\":\"2.0\",\"id\":1,\"result\":\x7b\x7d\x7d\n\n"⟩).result
      = .error "received invalid response: notjson" := rfl
  rw [hres] at h
  exact Except.noConfusion h.1

/-- C2 amended: with a handler registered, an event whose payload classifies
as nothing makes the SSE parse abort at that event: `Send` reports the raw
payload in the error and no later event of the body is dispatched. -/
theorem sse_unclassifiable_event_aborts (bad : String) (rest : List String)
    (hbad : classifyStr bad = none) :
    SSEClientTransport.parseSSEResponse true (("data: " ++ bad) :: "" :: rest) =
      { dispatched := [], err := some ("received invalid response: " ++ bad) } := by
  unfold SSEClientTransport.parseSSEResponse
  unfold SSEClientTransport.parseSSELoop
  rw [if_pos (hasPfx_append "data: " bad), dropPfx_append]
  unfold SSEClientTransport.parseSSELoop
  have hnotdata : hasPfx "" "data: " = false := rfl
  rw [if_neg (by simp [hnotdata])]
  have hcond : ("" = "" && !([bad].isEmpty : Bool)) = true := by simp
  rw [if_pos (by simpa using hcond)]
  have hjoin : strJoin "\n" [bad] = bad := rfl
  simp only [List.nil_append]
  rw [hjoin]
  unfold SSEClientTransport.handleJSONResponse
  rw [hbad]
  rfl

/-- Closed instance of the amended C2: the body of the counterexample, with
the well-formed second event left unprocessed. -/
theorem sse_unclassifiable_event_aborts_witness :
    SSEClientTransport.parseSSEResponse true
        (("data: " ++ "notjson") ::
          "" :: ["data: \x7b\"jsonrpc\":\"2.0\",\"id\":1,\"result\":\x7b\x7d\x7d", ""]) =
      { dispatched := [], err := some ("received invalid response: " ++ "notjson") } :=
  sse_unclassifiable_event_aborts "notjson"
    ["data: \x7b\"jsonrpc\":\"2.0\",\"id\":1,\"result\":\x7b\x7d\x7d", ""] rfl
